import Mathlib

/-!
Verification of the SQ100 serial protocol core (`sq100/arival_sq100.py`).

Shallow embedding conventions:
* Python `bytes` values are `List Nat`, each element intended to lie in
  `[0, 255]`; where a property needs byte-ness it is an explicit hypothesis.
* Fallible Python code (raised exceptions) is embedded as `Except Err _`.
  `Err` distinguishes the exception classes that can escape the embedded
  functions.
* `datetime.timedelta(seconds=round(d / 10, 1))` is represented exactly by
  its count `d` of deciseconds (`Duration`); two such timedeltas are equal
  iff their decisecond counts are equal, which is all the code observes.
* Fixed-point wire values (latitude/longitude at 1e-6 degrees, speed at
  1e-2 units) are represented by their integer numerators, avoiding floats
  while preserving equality and all arithmetic the code performs on them.
* Machine integers are `Nat` (signed: `Int`), with explicit big-endian
  (re)composition; no bit-vector types are used.
-/

namespace SQ100

/-- Exception classes that can escape the embedded functions.
`protocol` models `SQ100MessageException` (the class itself lives in
`sq100/exceptions.py`, whose revision is not part of the sources; its raise
sites are all in `arival_sq100.py`).  `structError` models Python
`struct.error`, `valueError` models `ValueError` (from
`datetime.datetime`), `keyError` models a builtin `KeyError` from `dict`
indexing, `transport` models a failed serial read.  `notFound` is modelled
from the spec: the dedicated `NotFoundError` / `UnknownTrackIdError` the
spec asks for; no code path of the source produces it. -/
inductive Err : Type where
  | protocol : Err
  | structError : Err
  | valueError : Err
  | keyError : Err
  | transport : Err
  | notFound : Err
deriving DecidableEq

instance {ε α : Type} [DecidableEq ε] [DecidableEq α] :
    DecidableEq (Except ε α) := fun x y =>
  match x, y with
  | .error e, .error f => decidable_of_iff (e = f) (by simp)
  | .error _, .ok _ => isFalse (by simp)
  | .ok _, .error _ => isFalse (by simp)
  | .ok a, .ok b => decidable_of_iff (a = b) (by simp)

/-- Big-endian 16-bit value from the two bytes of `b` at offsets `i`, `i+1`
(out-of-range offsets read as 0; every use is guarded by a length check). -/
def u16_at (b : List Nat) (i : Nat) : Nat :=
  256 * b.getD i 0 + b.getD (i + 1) 0

/-- Big-endian 32-bit value from the four bytes of `b` at offsets `i..i+3`. -/
def u32_at (b : List Nat) (i : Nat) : Nat :=
  256 * (256 * (256 * b.getD i 0 + b.getD (i + 1) 0) + b.getD (i + 2) 0)
    + b.getD (i + 3) 0

/-- Big-endian 32-bit two's-complement value at offsets `i..i+3`
(struct format `i`). -/
def i32_at (b : List Nat) (i : Nat) : Int :=
  let v := u32_at b i
  if v < 2147483648 then (v : Int) else (v : Int) - 4294967296

/-- The two bytes of `struct.pack("H", n)` on the platforms the program runs
on (native byte order, little-endian).  `struct.pack` raises for
`n ≥ 2 ^ 16`; the sole callers guard that case (see `create_message` and the
length check in `unpack_message`). -/
def pack_u16_native (n : Nat) : List Nat :=
  [n % 256, n / 256 % 256]

/-- Python `functools.reduce(lambda x, y: x ^ y, l)` (no initializer; every
call site passes a nonempty list). -/
def reduce_xor : List Nat → Nat
  | [] => 0
  | x :: rest => rest.foldl (fun a b => a ^^^ b) x

/-- Source `calc_checksum`: xor-reduce of the packed length of `payload`
followed by the bytes of `payload`. -/
def calc_checksum (payload : List Nat) : Nat :=
  reduce_xor (pack_u16_native payload.length ++ payload)

/-- Messages as parsed by `unpack_message` (source `Message` named tuple). -/
structure Message : Type where
  command : Nat
  payload_length : Nat
  parameter : List Nat
  checksum : Nat
deriving DecidableEq

/-- Source `create_message`: `struct.pack(">BH%dsB", 0x02, len(payload),
payload, checksum)` with `payload = bytes([command]) + parameter`.
`struct.pack` (and the `struct.pack("H", ...)` inside `calc_checksum`)
raises unless `command ≤ 255` and `len(payload) ≤ 65535`; both raises are
embedded as `Err.structError`. -/
def create_message (command : Nat) (parameter : List Nat) :
    Except Err (List Nat) :=
  let payload := command :: parameter
  if 65535 < payload.length then .error .structError
  else if 255 < command then .error .structError
  else .ok ([2, payload.length / 256, payload.length % 256]
    ++ payload ++ [calc_checksum payload])

/-- Source `unpack_message`: split `message` by `">BH%dsB" % (len - 4)`
(first byte, big-endian u16, middle bytes, final byte), then check the
declared payload length against the middle-part length and the recomputed
checksum against the final byte.  A message shorter than 4 bytes makes the
`struct` format itself invalid (`struct.error`). -/
def unpack_message (message : List Nat) : Except Err Message :=
  match message with
  | command :: h :: l :: rest =>
    if rest.length = 0 then .error .structError
    else
      let payload_length := 256 * h + l
      let parameter := rest.take (rest.length - 1)
      let checksum := (rest.getLast?).getD 0
      if payload_length ≠ parameter.length then .error .protocol
      else if checksum ≠ calc_checksum parameter then .error .protocol
      else .ok ⟨command, payload_length, parameter, checksum⟩
  | _ => .error .structError

/-- A calendar timestamp as produced by `datetime.datetime(year, month, day,
hour, minute, second)`. -/
structure DateTime : Type where
  year : Nat
  month : Nat
  day : Nat
  hour : Nat
  minute : Nat
  second : Nat
deriving DecidableEq

/-- Whether `year` is a leap year (Gregorian rule used by `datetime`). -/
def is_leap_year (year : Nat) : Bool :=
  year % 4 = 0 && (year % 100 ≠ 0 || year % 400 = 0)

/-- Number of days of `month` in `year`, as `datetime` validates it. -/
def days_in_month (year month : Nat) : Nat :=
  if month = 2 then (if is_leap_year year then 29 else 28)
  else if month = 4 ∨ month = 6 ∨ month = 9 ∨ month = 11 then 30
  else 31

/-- The `datetime.datetime` constructor: checks its arguments and raises
`ValueError` on an out-of-range field. -/
def mk_datetime (year month day hour minute second : Nat) :
    Except Err DateTime :=
  if 1 ≤ year ∧ year ≤ 9999
      ∧ 1 ≤ month ∧ month ≤ 12
      ∧ 1 ≤ day ∧ day ≤ days_in_month year month
      ∧ hour ≤ 23 ∧ minute ≤ 59 ∧ second ≤ 59 then
    .ok ⟨year, month, day, hour, minute, second⟩
  else .error .valueError

/-- A `datetime.timedelta(seconds=round(d / 10, 1))` value, represented
exactly by its count `d` of deciseconds. -/
structure Duration : Type where
  deciseconds : Nat
deriving DecidableEq

/-- Source `TrackHead` dataclass. -/
structure TrackHead : Type where
  date : DateTime
  duration : Duration
  no_laps : Nat
  distance : Nat
  no_track_points : Nat
deriving DecidableEq

/-- Source `TrackListEntry` dataclass. -/
structure TrackListEntry : Type where
  date : DateTime
  no_laps : Nat
  duration : Duration
  distance : Nat
  no_track_points : Nat
  memory_block_index : Nat
  id : Nat
deriving DecidableEq

/-- Modelled from the spec: the `TrackInfo` record of `sq100/data_types.py`
(the revision of that module in the sources predates `TrackInfo`; its field
set is fixed by the spec's data model and by the constructor call in
`unpack_track_info_parameter`). -/
structure TrackInfo : Type where
  date : DateTime
  no_track_points : Nat
  duration : Duration
  distance : Nat
  no_laps : Nat
  memory_block_index : Nat
  id : Nat
  calories : Nat
  max_speed : Nat
  max_heart_rate : Nat
  avg_heart_rate : Nat
  ascending_height : Nat
  descending_height : Nat
  min_height : Nat
  max_height : Nat
deriving DecidableEq

/-- Source `Lap` dataclass (`sq100/data_types.py`); durations in
deciseconds, the remaining wire fields as decoded integers. -/
structure Lap : Type where
  duration : Duration
  total_time : Duration
  distance : Nat
  calories : Nat
  max_speed : Nat
  max_heart_rate : Nat
  avg_heart_rate : Nat
  min_height : Nat
  max_height : Nat
  first_index : Nat
  last_index : Nat
deriving DecidableEq

/-- Source `TrackPoint` dataclass; `latitude`/`longitude` are the signed
1e-6-degree numerators, `speed` the 1e-2 numerator, `interval` deciseconds. -/
structure TrackPoint : Type where
  latitude : Int
  longitude : Int
  altitude : Nat
  speed : Nat
  heart_rate : Nat
  interval : Duration
deriving DecidableEq

/-- Modelled from the spec: the aggregate `Track` record of
`sq100/data_types.py` (the revision in the sources predates the
`info`/`laps`/`track_points` shape used by `query_tracks`). -/
structure Track : Type where
  info : TrackInfo
  laps : List Lap
  track_points : List TrackPoint
deriving DecidableEq

/-- Source `head_is_compatible_to_track`. -/
def head_is_compatible_to_track (head : TrackHead) (track_info : TrackInfo) :
    Bool :=
  decide (head.date = track_info.date)
    && decide (head.duration = track_info.duration)
    && decide (head.no_laps = track_info.no_laps)
    && decide (head.distance = track_info.distance)
    && decide (head.no_track_points = track_info.no_track_points)

/-- Semantics of `struct.iter_unpack` buffer handling: split `bs` into
consecutive chunks of exactly `n` bytes, failing (`struct.error`) when the
total length is not a multiple of `n`.  An empty buffer yields no chunks. -/
def chunks (n : Nat) (bs : List Nat) : Option (List (List Nat)) :=
  if bs.length % n = 0 then
    some ((List.range (bs.length / n)).map fun i => (bs.drop (i * n)).take n)
  else none

/-- The `datetime.datetime(2000 + year, month, day, hour, minute, second)`
call shared by every decoder, reading the six leading header bytes. -/
def header_datetime (p : List Nat) : Except Err DateTime :=
  mk_datetime (2000 + p.getD 0 0) (p.getD 1 0) (p.getD 2 0)
    (p.getD 3 0) (p.getD 4 0) (p.getD 5 0)

/-- One lap record of `unpack_lap_info_parameter`, struct format
`">3I3H2B2H13s2H"` (41 bytes): `duration:u32 @0`, `total_time:u32 @4`,
`distance:u32 @8`, `calories:u16 @12`, unused `u16 @14`, `max_speed:u16
@16`, `max_heart_rate:u8 @18`, `avg_heart_rate:u8 @19`, `min_height:u16
@20`, `max_height:u16 @22`, 13 unused bytes `@24`, `first_index:u16 @37`,
`last_index:u16 @39`. -/
def parse_lap_record (r : List Nat) : Lap where
  duration := ⟨u32_at r 0⟩
  total_time := ⟨u32_at r 4⟩
  distance := u32_at r 8
  calories := u16_at r 12
  max_speed := u16_at r 16
  max_heart_rate := r.getD 18 0
  avg_heart_rate := r.getD 19 0
  min_height := u16_at r 20
  max_height := u16_at r 22
  first_index := u16_at r 37
  last_index := u16_at r 39

/-- Source `unpack_lap_info_parameter`: header struct `">6B3IH8sB"`
(29 bytes: six date bytes, `no_points:u32 @6`, `duration:u32 @10`,
`distance:u32 @14`, `no_laps:u16 @18`, 8 unused bytes, `msg_type:u8 @28`),
tag check `msg_type == 0xAA`, `TrackHead` construction (the `datetime` call
can raise), then `struct.iter_unpack` of 41-byte lap records. -/
def unpack_lap_info_parameter (parameter : List Nat) :
    Except Err (TrackHead × List Lap) :=
  if parameter.length < 29 then .error .structError
  else if parameter.getD 28 0 ≠ 0xAA then .error .protocol
  else
    match header_datetime parameter with
    | .error e => .error e
    | .ok date =>
      let track : TrackHead :=
        { date := date
          no_track_points := u32_at parameter 6
          duration := ⟨u32_at parameter 10⟩
          distance := u32_at parameter 14
          no_laps := u16_at parameter 18 }
      match chunks 41 (parameter.drop 29) with
      | none => .error .structError
      | some rs => .ok (track, rs.map parse_lap_record)

/-- Source `unpack_track_info_parameter`: header struct `">6B3I5HB"`
(29 bytes: six date bytes, `no_points:u32 @6`, `duration:u32 @10`,
`distance:u32 @14`, `no_laps:u16 @18`, unused u16 @20,
`memory_block_index:u16 @22`, unused u16 @24, `id:u16 @26`, `msg_type:u8
@28`), tag check `msg_type == 0x00`, statistics struct `">3H2B4H13s"` on the
remaining bytes (exactly 29 more: `calories:u16 @29`, unused u16 @31,
`max_speed:u16 @33`, `max_heart_rate:u8 @35`, `avg_heart_rate:u8 @36`,
`asc_height:u16 @37`, `des_height:u16 @39`, `min_height:u16 @41`,
`max_height:u16 @43`, 13 unused bytes), then `TrackInfo` construction. -/
def unpack_track_info_parameter (parameter : List Nat) :
    Except Err TrackInfo :=
  if parameter.length < 29 then .error .structError
  else if parameter.getD 28 0 ≠ 0x00 then .error .protocol
  else if parameter.length ≠ 58 then .error .structError
  else
    match header_datetime parameter with
    | .error e => .error e
    | .ok date =>
      .ok
        { date := date
          no_track_points := u32_at parameter 6
          duration := ⟨u32_at parameter 10⟩
          distance := u32_at parameter 14
          no_laps := u16_at parameter 18
          memory_block_index := u16_at parameter 22
          id := u16_at parameter 26
          calories := u16_at parameter 29
          max_speed := u16_at parameter 33
          max_heart_rate := parameter.getD 35 0
          avg_heart_rate := parameter.getD 36 0
          ascending_height := u16_at parameter 37
          descending_height := u16_at parameter 39
          min_height := u16_at parameter 41
          max_height := u16_at parameter 43 }

/-- One track-point record of `unpack_track_point_parameter`, struct format
`">2i3HBHH6s"` (25 bytes): `latitude:i32 @0`, `longitude:i32 @4`,
`altitude:u16 @8`, unused u16 @10, `speed:u16 @12`, `heart_rate:u8 @14`,
unused u16 @15, `interval:u16 @17`, 6 unused bytes. -/
def parse_track_point_record (r : List Nat) : TrackPoint where
  latitude := i32_at r 0
  longitude := i32_at r 4
  altitude := u16_at r 8
  speed := u16_at r 12
  heart_rate := r.getD 14 0
  interval := ⟨u16_at r 17⟩

/-- Source `unpack_track_point_parameter`: header struct `">6B3IH2IB"`
(29 bytes: six date bytes, `no_points:u32 @6`, `duration:u32 @10`,
`distance:u32 @14`, `no_laps:u16 @18`, `first_session_index:u32 @20`,
`last_session_index:u32 @24`, `msg_type:u8 @28`), tag check `msg_type ==
0x55`, `TrackHead` construction, then `struct.iter_unpack` of 25-byte point
records. -/
def unpack_track_point_parameter (parameter : List Nat) :
    Except Err (TrackHead × (Nat × Nat) × List TrackPoint) :=
  if parameter.length < 29 then .error .structError
  else if parameter.getD 28 0 ≠ 0x55 then .error .protocol
  else
    match header_datetime parameter with
    | .error e => .error e
    | .ok date =>
      let track : TrackHead :=
        { date := date
          no_track_points := u32_at parameter 6
          duration := ⟨u32_at parameter 10⟩
          distance := u32_at parameter 14
          no_laps := u16_at parameter 18 }
      let session_indices := (u32_at parameter 20, u32_at parameter 24)
      match chunks 25 (parameter.drop 29) with
      | none => .error .structError
      | some rs =>
        .ok (track, session_indices, rs.map parse_track_point_record)

/-- One track-list entry of `unpack_track_list_parameter`, struct format
`">6B3I5HB"` (29 bytes, same header shape as the track-info header; the
final byte is unused, there is no tag check).  The per-record `datetime`
call can raise. -/
def parse_track_list_entry (r : List Nat) : Except Err TrackListEntry :=
  match header_datetime r with
  | .error e => .error e
  | .ok date =>
    .ok
      { date := date
        no_laps := u16_at r 18
        duration := ⟨u32_at r 10⟩
        distance := u32_at r 14
        no_track_points := u32_at r 6
        memory_block_index := u16_at r 22
        id := u16_at r 26 }

/-- Source `unpack_track_list_parameter`: `struct.iter_unpack` of 29-byte
entries over the whole parameter (no header, no tag). -/
def unpack_track_list_parameter (parameter : List Nat) :
    Except Err (List TrackListEntry) :=
  match chunks 29 parameter with
  | none => .error .structError
  | some rs => rs.mapM parse_track_list_entry

/-- Source `is_get_tracks_finish_message`. -/
def is_get_tracks_finish_message (msg : Message) : Bool :=
  decide (msg.command = 0x8a)

/-- Source `process_get_tracks_lap_info_msg`: decode the lap-info parameter
and require the embedded `TrackHead` to be compatible with the expected
`TrackInfo` (else `SQ100MessageException`). -/
def process_get_tracks_lap_info_msg (expected_track_info : TrackInfo)
    (msg : Message) : Except Err (List Lap) :=
  match unpack_lap_info_parameter msg.parameter with
  | .error e => .error e
  | .ok (trackhead, laps) =>
    if ¬ head_is_compatible_to_track trackhead expected_track_info then
      .error .protocol
    else .ok laps

/-- Source `process_get_tracks_track_info_msg`. -/
def process_get_tracks_track_info_msg (msg : Message) :
    Except Err TrackInfo :=
  unpack_track_info_parameter msg.parameter

/-- Source `process_get_tracks_track_points_msg`: decode, then check head
compatibility, then the first session index against the expected session
start, then `last - first + 1` (Python `int` arithmetic, hence over `Int`)
against the number of decoded points; each failure is
`SQ100MessageException`. -/
def process_get_tracks_track_points_msg (expected_track_info : TrackInfo)
    (expected_session_start : Nat) (msg : Message) :
    Except Err (List TrackPoint) :=
  match unpack_track_point_parameter msg.parameter with
  | .error e => .error e
  | .ok (trackhead, session_indices, track_points) =>
    if ¬ head_is_compatible_to_track trackhead expected_track_info then
      .error .protocol
    else if session_indices.1 ≠ expected_session_start then
      .error .protocol
    else if (session_indices.2 : Int) - (session_indices.1 : Int) + 1
        ≠ (track_points.length : Int) then
      .error .protocol
    else .ok track_points

/-- Source `pack_get_tracks_parameter`: `struct.pack(">H%dH", count,
*indices)`; raises (`struct.error`) when the count or an index exceeds
`0xFFFF`. -/
def pack_get_tracks_parameter (memory_indices : List Nat) :
    Except Err (List Nat) :=
  if 65535 < memory_indices.length ∨ ∃ i ∈ memory_indices, 65535 < i then
    .error .structError
  else
    .ok ((pack_u16_native memory_indices.length).reverse
      ++ (memory_indices.map fun i => [i / 256, i % 256]).flatten)

/-- Source `track_ids_to_memory_indices`: build the dict `{t.id:
t.memory_block_index for t in tracks}` (a later entry overwrites an earlier
one with the same id, hence the reversed search) and index it with each
requested id in request order; a missing id raises a builtin `KeyError`. -/
def track_ids_to_memory_indices (tracks : List TrackListEntry) :
    List Nat → Except Err (List Nat)
  | [] => .ok []
  | track_id :: rest =>
    match tracks.reverse.find? (fun t => t.id == track_id) with
    | none => .error .keyError
    | some t =>
      match track_ids_to_memory_indices tracks rest with
      | .error e => .error e
      | .ok ms => .ok (t.memory_block_index :: ms)

/-- Source `query`, over an embedded transport: the device's pending raw
replies are a list of byte strings, one full reply per `query` call.  The
outgoing write is irrelevant to the returned data; the two-phase read
yields the reply's bytes, which `unpack_message` validates.  An exhausted
reply list models a read timeout (`SQ100SerialException`). -/
def query (replies : List (List Nat)) :
    Except Err (Message × List (List Nat)) :=
  match replies with
  | [] => .error .transport
  | raw :: rest =>
    match unpack_message raw with
    | .error e => .error e
    | .ok msg => .ok (msg, rest)

/-- The `while len(track_points) < track_info.no_track_points` loop of
`query_tracks`: keep requesting `0x81` replies and appending the decoded
points, passing the accumulated count as the expected session start. -/
def accumulate_points (track_info : TrackInfo) (acc : List TrackPoint) :
    List (List Nat) → Except Err (List TrackPoint × List (List Nat))
  | [] =>
    if acc.length < track_info.no_track_points then .error .transport
    else .ok (acc, [])
  | raw :: rest =>
    if acc.length < track_info.no_track_points then
      match unpack_message raw with
      | .error e => .error e
      | .ok msg =>
        match process_get_tracks_track_points_msg track_info acc.length
            msg with
        | .error e => .error e
        | .ok pts => accumulate_points track_info (acc ++ pts) rest
    else .ok (acc, raw :: rest)

/-- The `for _ in range(len(track_ids))` body of `query_tracks`: `msg` is
the pending reply to interpret as track info; the function returns the
assembled tracks of the remaining iterations together with the reply
pending after the last iteration. -/
def query_tracks_aux (n : Nat) (msg : Message)
    (replies : List (List Nat)) :
    Except Err (List Track × Message) :=
  match n with
  | 0 => .ok ([], msg)
  | m + 1 =>
    match process_get_tracks_track_info_msg msg with
    | .error e => .error e
    | .ok track_info =>
      match query replies with
      | .error e => .error e
      | .ok (lap_msg, replies) =>
        match process_get_tracks_lap_info_msg track_info lap_msg with
        | .error e => .error e
        | .ok laps =>
          match accumulate_points track_info [] replies with
          | .error e => .error e
          | .ok (track_points, replies) =>
            match query replies with
            | .error e => .error e
            | .ok (next_msg, replies) =>
              match query_tracks_aux m next_msg replies with
              | .error e => .error e
              | .ok (tracks, final_msg) =>
                .ok (⟨track_info, laps, track_points⟩ :: tracks, final_msg)

/-- Source `query_tracks`, over the embedded transport: fetch and decode
the track list, map the requested ids to memory indices, pack the bulk
request, then assemble one track per requested id and require the final
reply to be the `0x8a` finish message. -/
def query_tracks (replies : List (List Nat)) (track_ids : List Nat) :
    Except Err (List Track) :=
  match query replies with
  | .error e => .error e
  | .ok (list_msg, replies) =>
    match unpack_track_list_parameter list_msg.parameter with
    | .error e => .error e
    | .ok track_list =>
      match track_ids_to_memory_indices track_list track_ids with
      | .error e => .error e
      | .ok memory_indices =>
        match pack_get_tracks_parameter memory_indices with
        | .error e => .error e
        | .ok _params =>
          match query replies with
          | .error e => .error e
          | .ok (msg, replies) =>
            match query_tracks_aux track_ids.length msg replies with
            | .error e => .error e
            | .ok (tracks, final_msg) =>
              if ¬ is_get_tracks_finish_message final_msg then
                .error .protocol
              else .ok tracks

/-- Big-endian bytes of a 16-bit value (struct format `>H`), as the
test-suite pack helpers produce them. -/
def encode_u16 (v : Nat) : List Nat :=
  [v / 256 % 256, v % 256]

/-- Big-endian bytes of a 32-bit value (struct format `>I`). -/
def encode_u32 (v : Nat) : List Nat :=
  [v / 16777216 % 256, v / 65536 % 256, v / 256 % 256, v % 256]

/-- The six leading date bytes of every header (`year - 2000`, month, day,
hour, minute, second), as `make_lap_info_trackhead_pack` in the test suite
produces them. -/
def encode_date_bytes (d : DateTime) : List Nat :=
  [d.year - 2000, d.month, d.day, d.hour, d.minute, d.second]

/-- A 41-byte wire lap record carrying the fields of `l` (unused bytes 0),
per struct format `">3I3H2B2H13s2H"`. -/
def encode_lap_record (l : Lap) : List Nat :=
  encode_u32 l.duration.deciseconds ++ encode_u32 l.total_time.deciseconds
    ++ encode_u32 l.distance ++ encode_u16 l.calories ++ [0, 0]
    ++ encode_u16 l.max_speed ++ [l.max_heart_rate, l.avg_heart_rate]
    ++ encode_u16 l.min_height ++ encode_u16 l.max_height
    ++ [0, 0, 0, 0, 0, 0, 0, 0, 0, 0, 0, 0, 0]
    ++ encode_u16 l.first_index ++ encode_u16 l.last_index

/-- A 29-byte lap-info header carrying the fields of `h` and tag `0xAA`,
per struct format `">6B3IH8sB"`. -/
def encode_lap_info_header (h : TrackHead) : List Nat :=
  encode_date_bytes h.date ++ encode_u32 h.no_track_points
    ++ encode_u32 h.duration.deciseconds ++ encode_u32 h.distance
    ++ encode_u16 h.no_laps ++ [0, 0, 0, 0, 0, 0, 0, 0] ++ [0xAA]

/-- A 29-byte track-point header carrying the fields of `h`, the session
index pair and tag `0x55`, per struct format `">6B3IH2IB"`. -/
def encode_track_point_header (h : TrackHead)
    (first_session_index last_session_index : Nat) : List Nat :=
  encode_date_bytes h.date ++ encode_u32 h.no_track_points
    ++ encode_u32 h.duration.deciseconds ++ encode_u32 h.distance
    ++ encode_u16 h.no_laps ++ encode_u32 first_session_index
    ++ encode_u32 last_session_index ++ [0x55]

/-- A 58-byte track-info parameter carrying the fields of `info` with tag
`0x00`, per struct formats `">6B3I5HB"` and `">3H2B4H13s"`. -/
def encode_track_info_parameter (info : TrackInfo) : List Nat :=
  encode_date_bytes info.date ++ encode_u32 info.no_track_points
    ++ encode_u32 info.duration.deciseconds ++ encode_u32 info.distance
    ++ encode_u16 info.no_laps ++ encode_u16 0
    ++ encode_u16 info.memory_block_index ++ encode_u16 0
    ++ encode_u16 info.id ++ [0x00]
    ++ encode_u16 info.calories ++ encode_u16 0
    ++ encode_u16 info.max_speed
    ++ [info.max_heart_rate, info.avg_heart_rate]
    ++ encode_u16 info.ascending_height
    ++ encode_u16 info.descending_height
    ++ encode_u16 info.min_height ++ encode_u16 info.max_height
    ++ [0, 0, 0, 0, 0, 0, 0, 0, 0, 0, 0, 0, 0]

/-- A 29-byte track-list entry carrying the fields of `t`, per struct
format `">6B3I5HB"`. -/
def encode_track_list_entry (t : TrackListEntry) : List Nat :=
  encode_date_bytes t.date ++ encode_u32 t.no_track_points
    ++ encode_u32 t.duration.deciseconds ++ encode_u32 t.distance
    ++ encode_u16 t.no_laps ++ encode_u16 0
    ++ encode_u16 t.memory_block_index ++ encode_u16 0
    ++ encode_u16 t.id ++ [0]

/-- A raw device reply framing `parameter`: first byte `command`, big-endian
length, parameter bytes, trailing `calc_checksum parameter` (the layout
`unpack_message` and the test helper `make_message_pack` agree on). -/
def make_reply (command : Nat) (parameter : List Nat) : List Nat :=
  command :: (parameter.length / 256) :: (parameter.length % 256)
    :: (parameter ++ [calc_checksum parameter])

/-- The timestamp 2001-01-01 00:00:00 shared by the concrete wire inputs
below. -/
def sample_date : DateTime := ⟨2001, 1, 1, 0, 0, 0⟩

/-- Concrete `TrackInfo` declaring exactly one track point (memory block
3, id 7, all statistics 0). -/
def sample_info : TrackInfo :=
  ⟨sample_date, 1, ⟨0⟩, 0, 0, 3, 7, 0, 0, 0, 0, 0, 0, 0, 0⟩

/-- The `TrackHead` matching `sample_info`. -/
def sample_head : TrackHead := ⟨sample_date, ⟨0⟩, 0, 0, 1⟩

/-- Reply sequence for a one-track download in which the device answers the
single-point track with one track-point message carrying two points
(session indices 0..1): track list, track info, lap info (no laps), track
points, finish. -/
def overshoot_replies : List (List Nat) :=
  [make_reply 0x78 (encode_track_list_entry ⟨sample_date, 0, ⟨0⟩, 0, 1, 3, 7⟩),
   make_reply 0x80 (encode_track_info_parameter sample_info),
   make_reply 0x81 (encode_lap_info_header sample_head),
   make_reply 0x81
     (encode_track_point_header sample_head 0 1 ++ List.replicate 50 0),
   make_reply 0x8a []]

/-! Helper lemmas. -/

lemma foldl_xor_lt (l : List Nat) (hl : ∀ b ∈ l, b < 256) :
    ∀ x, x < 256 → l.foldl (fun a b => a ^^^ b) x < 256 := by
  induction l with
  | nil => intro x hx; simpa using hx
  | cons b t ih =>
    intro x hx
    simp only [List.foldl_cons]
    refine ih (fun c hc => hl c (List.mem_cons_of_mem _ hc)) _ ?_
    have hb : b < 256 := hl b (List.mem_cons_self _ _)
    have : x ^^^ b < 2 ^ 8 := Nat.xor_lt_two_pow (by simpa using hx)
      (by simpa using hb)
    simpa using this

lemma create_message_eq (command : Nat) (parameter : List Nat)
    (hp : parameter.length ≤ 65534) (hc : command ≤ 255) :
    create_message command parameter
      = .ok (2 :: (1 + parameter.length) / 256 :: (1 + parameter.length) % 256
          :: command :: (parameter ++ [calc_checksum (command :: parameter)])) := by
  have h1 : ¬ 65535 < (command :: parameter).length := by
    simp only [List.length_cons]; omega
  have h2 : ¬ 255 < command := by omega
  simp only [create_message]
  rw [if_neg h1, if_neg h2]
  simp [Nat.add_comm]

/-! Claim theorems. -/

/-- C5: for every byte string `payload` with `len(payload) ≤ 65535`,
`calc_checksum(payload)` equals the xor fold of the two big-endian bytes of
`len(payload)` followed by every byte of `payload` (the source packs the
length in native little-endian order, but xor is commutative), the result
fits in a `u8`, and `calc_checksum(b"\x45\x73\xAF\x20") = 4 ^ 0x45 ^ 0x73 ^
0xAF ^ 0x20`. -/
theorem calc_checksum_correct :
    (∀ payload : List Nat, payload.length ≤ 65535 →
      (∀ b ∈ payload, b < 256) →
      calc_checksum payload
          = reduce_xor
              (payload.length / 256 :: payload.length % 256 :: payload)
        ∧ calc_checksum payload < 256)
    ∧ calc_checksum [0x45, 0x73, 0xAF, 0x20]
        = 4 ^^^ 0x45 ^^^ 0x73 ^^^ 0xAF ^^^ 0x20 := by
  refine ⟨fun payload hlen hbytes => ?_, by decide⟩
  have h1 : payload.length / 256 % 256 = payload.length / 256 :=
    Nat.mod_eq_of_lt (by omega)
  constructor
  · simp only [calc_checksum, pack_u16_native, List.cons_append,
      List.nil_append, reduce_xor, List.foldl_cons, h1, Nat.xor_comm]
  · simp only [calc_checksum, pack_u16_native, List.cons_append,
      List.nil_append, reduce_xor, List.foldl_cons]
    refine foldl_xor_lt payload hbytes _ ?_
    have ha : payload.length % 256 < 2 ^ 8 := by
      have := Nat.mod_lt payload.length (y := 256) (by omega); simpa using this
    have hb : payload.length / 256 % 256 < 2 ^ 8 := by
      have := Nat.mod_lt (payload.length / 256) (y := 256) (by omega)
      simpa using this
    simpa using Nat.xor_lt_two_pow ha hb

/-- C5 witness: the checksum of the concrete payload `b"\x45\x73\xAF\x20"`
satisfies both conjuncts at that input. -/
theorem calc_checksum_correct_witness :
    calc_checksum [0x45, 0x73, 0xAF, 0x20]
        = reduce_xor [0, 4, 0x45, 0x73, 0xAF, 0x20]
      ∧ calc_checksum [0x45, 0x73, 0xAF, 0x20] < 256 :=
  (calc_checksum_correct.1 [0x45, 0x73, 0xAF, 0x20] (by decide) (by decide))

/-- C9: `create_message` produces exactly
`[0x02, len_hi, len_lo, command, parameter..., checksum]` with
`len = 1 + len(parameter)` and `checksum = calc_checksum([command] ++
parameter)`, and in particular the two concrete byte strings the spec
lists. -/
theorem create_message_correct :
    (∀ (command : Nat) (parameter : List Nat),
      command ≤ 255 → parameter.length ≤ 65534 →
      create_message command parameter
        = .ok ([2, (1 + parameter.length) / 256, (1 + parameter.length) % 256,
            command] ++ parameter ++ [calc_checksum (command :: parameter)]))
    ∧ create_message 0x78 [] = .ok [0x02, 0x00, 0x01, 0x78, 0x79]
    ∧ create_message 0x78 [0x42] = .ok [0x02, 0x00, 0x02, 0x78, 0x42, 0x38] := by
  refine ⟨fun command parameter hc hp => ?_, by decide, by decide⟩
  rw [create_message_eq command parameter hp hc]
  simp

/-- C9 witness: the general layout theorem applied at command `3`,
parameter `[7]`. -/
theorem create_message_correct_witness :
    create_message 3 [7] = .ok [2, 0, 2, 3, 7, 6] := by
  rw [create_message_correct.1 3 [7] (by decide) (by decide)]
  decide

/-- C6: whenever the 29-byte header parses (the parameter has at least 29
bytes), each tag-checked decoder raises `SQ100MessageException` as soon as
the `msg_type` byte (offset 28) differs from its expected tag: `0xAA` for
lap info, `0x00` for track info, `0x55` for track points. -/
theorem msg_type_mismatch_raises (p : List Nat) (hlen : 29 ≤ p.length) :
    (p.getD 28 0 ≠ 0xAA → unpack_lap_info_parameter p = .error .protocol)
    ∧ (p.getD 28 0 ≠ 0x00 → unpack_track_info_parameter p = .error .protocol)
    ∧ (p.getD 28 0 ≠ 0x55 →
        unpack_track_point_parameter p = .error .protocol) := by
  have h : ¬ p.length < 29 := by omega
  refine ⟨fun htag => ?_, fun htag => ?_, fun htag => ?_⟩
  · simp only [unpack_lap_info_parameter, h, if_false]
    rw [if_pos htag]
  · simp only [unpack_track_info_parameter, h, if_false]
    rw [if_pos htag]
  · simp only [unpack_track_point_parameter, h, if_false]
    rw [if_pos htag]

/-- C6 witness: a lap-info header tagged `0xAB` instead of `0xAA` raises
(the spec's own example), via the general theorem. -/
theorem msg_type_mismatch_raises_witness :
    unpack_lap_info_parameter (List.replicate 28 0 ++ [0xAB])
      = .error .protocol :=
  (msg_type_mismatch_raises (List.replicate 28 0 ++ [0xAB])
    (by decide)).1 (by decide)

lemma getLast?_getD_eq_getD (l : List Nat) (d : Nat) :
    l.getLast?.getD d = l.getD (l.length - 1) d := by
  rw [List.getLast?_eq_getElem?, List.getD_eq_getElem?_getD]

lemma except_bind_ok {ε α β : Type} (a : α) (f : α → Except ε β) :
    (Except.ok a).bind f = f a := rfl

lemma unpack_message_frame (c0 h l cb : Nat) (param : List Nat) (cs : Nat)
    (hlen : 256 * h + l = param.length + 1)
    (hcs : cs = calc_checksum (cb :: param)) :
    unpack_message (c0 :: h :: l :: cb :: (param ++ [cs]))
      = .ok ⟨c0, 256 * h + l, cb :: param, cs⟩ := by
  have h0 : (cb :: (param ++ [cs])).length = param.length + 2 := by simp
  have htake : (cb :: (param ++ [cs])).take
      ((cb :: (param ++ [cs])).length - 1) = cb :: param := by
    rw [h0, show param.length + 2 - 1 = param.length + 1 from rfl,
      List.take_succ_cons, List.take_left' rfl]
  have hlast : (cb :: (param ++ [cs])).getLast?.getD 0 = cs := by
    rw [show cb :: (param ++ [cs]) = (cb :: param) ++ [cs] from rfl,
      List.getLast?_concat]
    rfl
  have hne : ¬ (cb :: (param ++ [cs])).length = 0 := by rw [h0]; omega
  simp only [unpack_message, hne, if_false, htake, hlast]
  rw [if_neg (by simp [hlen]), if_neg (by simp [hcs])]

/-- C1 counterexample: at `cmd = 0x78`, `p = b""`, the round trip
`unpack_message(create_message(cmd, p))` succeeds but yields the message
`{command: 0x02, payload_length: 1, parameter: b"\x78", checksum: 0x79}`:
`unpack_message` stores the leading start byte in `command` and the whole
payload (command byte included) in `parameter`, so it does not reconstruct
`{command: 0x78, parameter: b""}` as the claim states. -/
theorem round_trip_counterexample :
    (create_message 0x78 []).bind unpack_message
        = .ok ⟨0x02, 1, [0x78], 0x79⟩
      ∧ (0x02 ≠ 0x78 ∧ ([0x78] : List Nat) ≠ ([] : List Nat)) := by
  decide

/-- C1 amended: for every command byte `cmd` and parameter `p` (with
`len(p) ≤ 65534` so that framing fits), the round trip succeeds and yields
the message with `command = 0x02` (the start byte), `payload_length =
1 + len(p)`, `parameter = [cmd] ++ p` and the matching checksum. -/
theorem round_trip_actual (command : Nat) (parameter : List Nat)
    (hc : command ≤ 255) (hp : parameter.length ≤ 65534) :
    (create_message command parameter).bind unpack_message
      = .ok ⟨2, 1 + parameter.length, command :: parameter,
          calc_checksum (command :: parameter)⟩ := by
  rw [create_message_eq command parameter hp hc, except_bind_ok]
  rw [unpack_message_frame 2 ((1 + parameter.length) / 256)
    ((1 + parameter.length) % 256) command parameter
    (calc_checksum (command :: parameter))
    (by rw [Nat.div_add_mod]; omega) rfl]
  rw [Nat.div_add_mod]

/-- C1 witness: the amended round-trip theorem applied at command `5`,
parameter `[1, 2]`. -/
theorem round_trip_actual_witness :
    (create_message 5 [1, 2]).bind unpack_message
      = .ok ⟨2, 3, [5, 1, 2], calc_checksum [5, 1, 2]⟩ := by
  rw [round_trip_actual 5 [1, 2] (by decide) (by decide)]
  decide

/-- C8: for every raw byte string of length at least 4, `unpack_message`
raises `SQ100MessageException` if and only if the declared big-endian
payload length (bytes 1–2) differs from the actual parameter length
(`len - 4`) or the recomputed checksum differs from the trailing byte;
when both checks pass it returns the parsed message unchanged. -/
theorem unpack_message_correct (raw : List Nat) (hlen : 4 ≤ raw.length) :
    (unpack_message raw = .error .protocol
      ↔ 256 * raw.getD 1 0 + raw.getD 2 0 ≠ raw.length - 4
        ∨ raw.getD (raw.length - 1) 0
            ≠ calc_checksum ((raw.drop 3).take (raw.length - 4)))
    ∧ (256 * raw.getD 1 0 + raw.getD 2 0 = raw.length - 4 →
        raw.getD (raw.length - 1) 0
            = calc_checksum ((raw.drop 3).take (raw.length - 4)) →
        unpack_message raw
          = .ok ⟨raw.getD 0 0, raw.length - 4,
              (raw.drop 3).take (raw.length - 4),
              raw.getD (raw.length - 1) 0⟩) := by
  match raw, hlen with
  | a :: b :: c :: rest, hlen =>
  have hr : rest.length ≠ 0 := by
    simp only [List.length_cons] at hlen; omega
  have hL : (a :: b :: c :: rest).length = rest.length + 3 := by simp
  have hL4 : (a :: b :: c :: rest).length - 4 = rest.length - 1 := by
    rw [hL]; omega
  have hL1 : (a :: b :: c :: rest).length - 1 = rest.length + 2 := by
    rw [hL]; omega
  have hgd : (a :: b :: c :: rest).getD ((a :: b :: c :: rest).length - 1) 0
      = rest.getD (rest.length - 1) 0 := by
    rw [hL1, List.getD_cons_succ, List.getD_cons_succ]
    conv_lhs => rw [show rest.length = (rest.length - 1) + 1 by omega]
    rw [List.getD_cons_succ]
  have hdrop : (a :: b :: c :: rest).drop 3 = rest := rfl
  have hlen_take : (rest.take (rest.length - 1)).length = rest.length - 1 := by
    rw [List.length_take]; omega
  have hglast : rest.getLast?.getD 0 = rest.getD (rest.length - 1) 0 :=
    getLast?_getD_eq_getD rest 0
  simp only [List.getD_cons_succ, List.getD_cons_zero, hL4, hgd, hdrop]
  simp only [unpack_message, hr, if_false, hglast]
  by_cases h1 : 256 * b + c = rest.length - 1
  · by_cases h2 : rest.getD (rest.length - 1) 0
        = calc_checksum (rest.take (rest.length - 1))
    · rw [if_neg (by rw [hlen_take]; simpa using h1),
        if_neg (by simpa using h2)]
      constructor
      · refine ⟨fun hco => absurd hco (by simp), fun hor => ?_⟩
        rcases hor with h | h
        · exact absurd h1 h
        · exact absurd h2 h
      · intro _ _
        rw [h1]
    · rw [if_neg (by rw [hlen_take]; simpa using h1),
        if_pos (by simpa using h2)]
      exact ⟨⟨fun _ => Or.inr h2, fun _ => rfl⟩,
        fun _ h2' => absurd h2' h2⟩
  · rw [if_pos (by rw [hlen_take]; simpa using h1)]
    exact ⟨⟨fun _ => Or.inl h1, fun _ => rfl⟩,
      fun h1' _ => absurd h1' h1⟩

/-- C8 witness: the characterization applied at the raw message
`[0, 0, 0, 0]` (empty parameter, checksum 0), whose checks pass. -/
theorem unpack_message_correct_witness :
    unpack_message [0, 0, 0, 0] = .ok ⟨0, 0, [], 0⟩ := by
  have h := (unpack_message_correct [0, 0, 0, 0] (by decide)).2
    (by decide) (by decide)
  simpa using h

/-- C7: for every track-points message whose parameter decodes (to a head,
session index pair `(fi, la)` and point list), the processing step raises
`SQ100MessageException` when the head is incompatible with the expected
`TrackInfo`, or `fi` differs from the number of points already accumulated,
or `la - fi + 1` (as integers) differs from the number of decoded points;
when all three checks pass it returns exactly the decoded points. -/
theorem process_track_points_correct (expected_track_info : TrackInfo)
    (expected_session_start : Nat) (msg : Message) (head : TrackHead)
    (fi la : Nat) (pts : List TrackPoint)
    (hdec : unpack_track_point_parameter msg.parameter
      = .ok (head, (fi, la), pts)) :
    (¬ (head_is_compatible_to_track head expected_track_info = true
          ∧ fi = expected_session_start
          ∧ (la : Int) - (fi : Int) + 1 = (pts.length : Int)) →
      process_get_tracks_track_points_msg expected_track_info
        expected_session_start msg = .error .protocol)
    ∧ (head_is_compatible_to_track head expected_track_info = true →
        fi = expected_session_start →
        (la : Int) - (fi : Int) + 1 = (pts.length : Int) →
        process_get_tracks_track_points_msg expected_track_info
          expected_session_start msg = .ok pts) := by
  simp only [process_get_tracks_track_points_msg, hdec]
  by_cases hcomp :
      head_is_compatible_to_track head expected_track_info = true
  · by_cases hfi : fi = expected_session_start
    · by_cases hla : (la : Int) - (fi : Int) + 1 = (pts.length : Int)
      · rw [if_neg (by simp [hcomp]), if_neg (by simpa using hfi),
          if_neg (by simpa using hla)]
        exact ⟨fun hno => absurd ⟨hcomp, hfi, hla⟩ hno, fun _ _ _ => rfl⟩
      · rw [if_neg (by simp [hcomp]), if_neg (by simpa using hfi),
          if_pos (by simpa using hla)]
        exact ⟨fun _ => rfl, fun _ _ h => absurd h hla⟩
    · rw [if_neg (by simp [hcomp]), if_pos (by simpa using hfi)]
      exact ⟨fun _ => rfl, fun _ h _ => absurd h hfi⟩
  · rw [if_pos (by simpa using hcomp)]
    exact ⟨fun _ => rfl, fun h _ _ => absurd h hcomp⟩

/-- C7 witness: the spec's own example through the general theorem — a
message declaring session indices `(0, 10)` but carrying only 2 decoded
points raises. -/
theorem process_track_points_correct_witness :
    process_get_tracks_track_points_msg sample_info 0
        ⟨0, 0, encode_track_point_header sample_head 0 10
          ++ List.replicate 50 0, 0⟩
      = .error .protocol :=
  (process_track_points_correct sample_info 0
    ⟨0, 0, encode_track_point_header sample_head 0 10
      ++ List.replicate 50 0, 0⟩
    sample_head 0 10 [⟨0, 0, 0, 0, 0, ⟨0⟩⟩, ⟨0, 0, 0, 0, 0, ⟨0⟩⟩]
    (by decide)).1 (by decide)

/-- C3 counterexample: with catalog `{1: 10}` and request `[2]`, the
lookup fails with the generic builtin `KeyError` from dict indexing — not
with a dedicated not-found error (`NotFoundError` / `UnknownTrackIdError`),
which no code path of the source produces. -/
theorem track_ids_not_found_counterexample :
    track_ids_to_memory_indices
        [⟨sample_date, 0, ⟨0⟩, 0, 0, 10, 1⟩] [2] = .error .keyError
      ∧ Err.keyError ≠ Err.notFound := by decide

/-- C3 amended: when every requested id occurs in the catalog,
`track_ids_to_memory_indices` returns the memory block index of each
requested id in request order (in particular the spec's example
`{1:10, 2:20, 3:30, 4:40}` with request `[3,1,2]` yields `[30,10,20]`);
when some requested id is absent the call fails with the generic builtin
`KeyError`, not a dedicated not-found error. -/
theorem track_ids_to_memory_indices_correct :
    (∀ (tracks : List TrackListEntry) (track_ids ms : List Nat),
      track_ids_to_memory_indices tracks track_ids = .ok ms →
      ms.length = track_ids.length
        ∧ ∀ i, i < track_ids.length →
            ∃ t ∈ tracks, t.id = track_ids.getD i 0
              ∧ ms.getD i 0 = t.memory_block_index)
    ∧ (∀ (tracks : List TrackListEntry) (track_ids : List Nat),
        (∃ id ∈ track_ids, ∀ t ∈ tracks, t.id ≠ id) →
        track_ids_to_memory_indices tracks track_ids = .error .keyError)
    ∧ track_ids_to_memory_indices
        [⟨sample_date, 0, ⟨0⟩, 0, 0, 10, 1⟩, ⟨sample_date, 0, ⟨0⟩, 0, 0, 20, 2⟩,
         ⟨sample_date, 0, ⟨0⟩, 0, 0, 30, 3⟩, ⟨sample_date, 0, ⟨0⟩, 0, 0, 40, 4⟩]
        [3, 1, 2] = .ok [30, 10, 20] := by
  refine ⟨fun tracks => ?_, fun tracks => ?_, by decide⟩
  · intro track_ids
    induction track_ids with
    | nil =>
      intro ms h
      simp only [track_ids_to_memory_indices] at h
      cases h
      exact ⟨rfl, fun i hi => by simp at hi⟩
    | cons a rest ih =>
      intro ms h
      simp only [track_ids_to_memory_indices] at h
      cases hfind : tracks.reverse.find? (fun t => t.id == a) with
      | none => rw [hfind] at h; cases h
      | some t =>
        rw [hfind] at h
        cases hrec : track_ids_to_memory_indices tracks rest with
        | error e => rw [hrec] at h; cases h
        | ok ms' =>
          rw [hrec] at h
          cases h
          obtain ⟨hlen, hmap⟩ := ih ms' hrec
          have hmem : t ∈ tracks := by
            have := List.mem_of_find?_eq_some hfind
            exact List.mem_reverse.mp this
          have hid : t.id = a := by
            have h' := List.find?_some hfind
            simpa using h'
          constructor
          · simp [hlen]
          · intro i hi
            cases i with
            | zero => exact ⟨t, hmem, by simpa using hid, rfl⟩
            | succ j =>
              simp only [List.length_cons] at hi
              obtain ⟨u, hu, hu1, hu2⟩ := hmap j (by omega)
              exact ⟨u, hu, by simpa using hu1, by simpa using hu2⟩
  · intro track_ids
    induction track_ids with
    | nil =>
      rintro ⟨id, hid, -⟩
      cases hid
    | cons a rest ih =>
      rintro ⟨id, hid, hnone⟩
      simp only [track_ids_to_memory_indices]
      cases hfind : tracks.reverse.find? (fun t => t.id == a) with
      | none => rfl
      | some t =>
        have hmem : t ∈ tracks :=
          List.mem_reverse.mp (List.mem_of_find?_eq_some hfind)
        have hid' : t.id = a := by
          have h' := List.find?_some hfind
          simpa using h'
        rcases List.mem_cons.mp hid with h | h
        · exact absurd (hid'.trans h.symm) (hnone t hmem)
        · rw [ih ⟨id, h, hnone⟩]

/-- C3 witness: requesting id 5 from an empty catalog fails with the
generic `KeyError`, via the general theorem. -/
theorem track_ids_to_memory_indices_correct_witness :
    track_ids_to_memory_indices [] [5] = .error .keyError :=
  track_ids_to_memory_indices_correct.2.1 [] [5]
    ⟨5, by decide, by decide⟩

lemma chunks_some_mod {n : Nat} {bs : List Nat} {cs : List (List Nat)}
    (h : chunks n bs = some cs) : bs.length % n = 0 := by
  by_cases hm : bs.length % n = 0
  · exact hm
  · simp [chunks, hm] at h

/-- C10: each repeating-record decoder succeeds only on the lengths its
fixed layout admits — lap info needs `len - 29` a multiple of 41 after a
29-byte header, track points `len - 29` a multiple of 25, and the track
list a multiple of 29 — and an empty repeated region yields zero records,
so the empty track-list parameter decodes to the empty list. -/
theorem decoder_defined_lengths :
    (∀ (p : List Nat) (r : TrackHead × List Lap),
      unpack_lap_info_parameter p = .ok r →
      29 ≤ p.length ∧ (p.length - 29) % 41 = 0)
    ∧ (∀ (p : List Nat) (r : TrackHead × (Nat × Nat) × List TrackPoint),
        unpack_track_point_parameter p = .ok r →
        29 ≤ p.length ∧ (p.length - 29) % 25 = 0)
    ∧ (∀ (p : List Nat) (r : List TrackListEntry),
        unpack_track_list_parameter p = .ok r → p.length % 29 = 0)
    ∧ unpack_track_list_parameter [] = .ok [] := by
  refine ⟨fun p r h => ?_, fun p r h => ?_, fun p r h => ?_, by decide⟩
  · simp only [unpack_lap_info_parameter] at h
    by_cases h1 : p.length < 29
    · rw [if_pos h1] at h; cases h
    · rw [if_neg h1] at h
      refine ⟨by omega, ?_⟩
      by_cases h2 : p.getD 28 0 ≠ 0xAA
      · rw [if_pos h2] at h; cases h
      · rw [if_neg h2] at h
        cases hd : header_datetime p with
        | error e => rw [hd] at h; cases h
        | ok date =>
          rw [hd] at h
          cases hc : chunks 41 (p.drop 29) with
          | none => rw [hc] at h; cases h
          | some rs =>
            have hm := chunks_some_mod hc
            rwa [List.length_drop] at hm
  · simp only [unpack_track_point_parameter] at h
    by_cases h1 : p.length < 29
    · rw [if_pos h1] at h; cases h
    · rw [if_neg h1] at h
      refine ⟨by omega, ?_⟩
      by_cases h2 : p.getD 28 0 ≠ 0x55
      · rw [if_pos h2] at h; cases h
      · rw [if_neg h2] at h
        cases hd : header_datetime p with
        | error e => rw [hd] at h; cases h
        | ok date =>
          rw [hd] at h
          cases hc : chunks 25 (p.drop 29) with
          | none => rw [hc] at h; cases h
          | some rs =>
            have hm := chunks_some_mod hc
            rwa [List.length_drop] at hm
  · simp only [unpack_track_list_parameter] at h
    cases hc : chunks 29 p with
    | none => rw [hc] at h; cases h
    | some rs => exact chunks_some_mod hc

/-- C10 witness: the lap-info conjunct applied to the 29-byte header-only
parameter (zero lap records), which decodes successfully. -/
theorem decoder_defined_lengths_witness :
    29 ≤ (encode_lap_info_header sample_head).length
      ∧ ((encode_lap_info_header sample_head).length - 29) % 41 = 0 :=
  decoder_defined_lengths.1 (encode_lap_info_header sample_head)
    (sample_head, []) (by decide)

lemma chunks_cons_chunk (n : Nat) (hn : 0 < n) (r rest : List Nat)
    (hr : r.length = n) :
    chunks n (r ++ rest) = (chunks n rest).map (fun cs => r :: cs) := by
  have hlen : (r ++ rest).length = n + rest.length := by simp [hr]
  have hmod : (r ++ rest).length % n = rest.length % n := by
    rw [hlen]; exact Nat.add_mod_left n rest.length
  by_cases hL : rest.length % n = 0
  · have hdiv : (r ++ rest).length / n = rest.length / n + 1 := by
      rw [hlen, Nat.add_comm n rest.length]; exact Nat.add_div_right _ hn
    unfold chunks
    rw [hmod, if_pos hL, if_pos hL, hdiv, List.range_succ_eq_map]
    simp only [List.map_cons, List.map_map, Option.map_some', Nat.zero_mul,
      List.drop_zero]
    rw [List.take_left' hr]
    refine congrArg some (congrArg (fun xs => r :: xs) ?_)
    refine List.map_congr_left ?_
    intro i _
    simp only [Function.comp_apply]
    have hidx : Nat.succ i * n = r.length + i * n := by
      rw [Nat.succ_mul, Nat.add_comm, hr]
    rw [hidx, List.drop_append]
  · unfold chunks
    rw [hmod, if_neg hL, if_neg hL]
    rfl

lemma chunks_flatten_exact (n : Nat) (hn : 0 < n) (rs : List (List Nat))
    (h : ∀ r ∈ rs, r.length = n) : chunks n rs.flatten = some rs := by
  induction rs with
  | nil => simp [chunks]
  | cons r t ih =>
    rw [List.flatten_cons,
      chunks_cons_chunk n hn r t.flatten (h r (List.mem_cons_self r t)),
      ih (fun x hx => h x (List.mem_cons_of_mem _ hx))]
    rfl

/-- Whether `d` passes the `datetime.datetime` constructor unchanged. -/
abbrev datetime_ok (d : DateTime) : Prop :=
  mk_datetime d.year d.month d.day d.hour d.minute d.second = .ok d

/-- The `TrackHead` values a 29-byte lap-info/track-point header can carry:
a valid timestamp in 2000–2255 and fields within their wire widths. -/
abbrev head_encodable (h : TrackHead) : Prop :=
  2000 ≤ h.date.year ∧ h.date.year ≤ 2255 ∧ datetime_ok h.date
    ∧ h.no_track_points < 4294967296 ∧ h.duration.deciseconds < 4294967296
    ∧ h.distance < 4294967296 ∧ h.no_laps < 65536

/-- The `Lap` values a 41-byte wire record can carry: every field within
its wire width (`duration`, `total_time`, `distance` are u32; `calories`,
`max_speed`, heights and indices u16; heart rates u8). -/
abbrev lap_encodable (l : Lap) : Prop :=
  l.duration.deciseconds < 4294967296 ∧ l.total_time.deciseconds < 4294967296
    ∧ l.distance < 4294967296 ∧ l.calories < 65536 ∧ l.max_speed < 65536
    ∧ l.max_heart_rate < 256 ∧ l.avg_heart_rate < 256
    ∧ l.min_height < 65536 ∧ l.max_height < 65536
    ∧ l.first_index < 65536 ∧ l.last_index < 65536

lemma encode_lap_record_length (l : Lap) :
    (encode_lap_record l).length = 41 := by
  simp [encode_lap_record, encode_u32, encode_u16]

lemma parse_encode_lap (l : Lap) (hl : lap_encodable l) :
    parse_lap_record (encode_lap_record l) = l := by
  cases l with
  | mk dur tot dist cal msp mhr ahr minh maxh fi la =>
  cases dur with
  | mk dd =>
  cases tot with
  | mk td =>
  simp only [lap_encodable] at hl
  obtain ⟨h1, h2, h3, h4, h5, h6, h7, h8, h9, h10, h11⟩ := hl
  simp only [parse_lap_record, encode_lap_record, encode_u32, encode_u16,
    List.cons_append, List.nil_append, u32_at, u16_at,
    List.getD_cons_succ, List.getD_cons_zero, Lap.mk.injEq,
    Duration.mk.injEq, true_and, and_true]
  omega

lemma map_parse_encode (ls : List Lap) (h : ∀ l ∈ ls, lap_encodable l) :
    (ls.map encode_lap_record).map parse_lap_record = ls := by
  induction ls with
  | nil => rfl
  | cons a t ih =>
    simp only [List.map_cons]
    rw [parse_encode_lap a (h a (List.mem_cons_self a t)),
      ih (fun x hx => h x (List.mem_cons_of_mem _ hx))]

set_option maxRecDepth 2000 in
lemma unpack_lap_info_append (head : TrackHead) (rest : List Nat)
    (hh : head_encodable head) :
    unpack_lap_info_parameter (encode_lap_info_header head ++ rest)
      = match chunks 41 rest with
        | none => .error .structError
        | some rs => .ok (head, rs.map parse_lap_record) := by
  cases head with
  | mk date dur no_laps dist npts =>
  cases date with
  | mk Y Mo D H Mi S =>
  cases dur with
  | mk dd =>
  simp only [head_encodable, datetime_ok] at hh
  obtain ⟨hy1, hy2, hdok, hnp, hdur, hdist, hlaps⟩ := hh
  simp only [encode_lap_info_header, encode_date_bytes, encode_u32,
    encode_u16, List.cons_append, List.nil_append]
  unfold unpack_lap_info_parameter
  rw [if_neg (by simp only [List.length_cons]; omega)]
  rw [if_neg (by
    simp only [List.getD_cons_succ, List.getD_cons_zero]
    exact fun hne => hne rfl)]
  have hdt : header_datetime ((Y - 2000) :: Mo :: D :: H :: Mi :: S
      :: npts / 16777216 % 256 :: npts / 65536 % 256 :: npts / 256 % 256
      :: npts % 256 :: dd / 16777216 % 256 :: dd / 65536 % 256
      :: dd / 256 % 256 :: dd % 256 :: dist / 16777216 % 256
      :: dist / 65536 % 256 :: dist / 256 % 256 :: dist % 256
      :: no_laps / 256 % 256 :: no_laps % 256 :: 0 :: 0 :: 0 :: 0 :: 0 :: 0
      :: 0 :: 0 :: 170 :: rest) = .ok ⟨Y, Mo, D, H, Mi, S⟩ := by
    simp only [header_datetime, List.getD_cons_succ, List.getD_cons_zero]
    rw [show 2000 + (Y - 2000) = Y by omega]
    exact hdok
  rw [hdt]
  rw [show List.drop 29 ((Y - 2000) :: Mo :: D :: H :: Mi :: S
      :: npts / 16777216 % 256 :: npts / 65536 % 256 :: npts / 256 % 256
      :: npts % 256 :: dd / 16777216 % 256 :: dd / 65536 % 256
      :: dd / 256 % 256 :: dd % 256 :: dist / 16777216 % 256
      :: dist / 65536 % 256 :: dist / 256 % 256 :: dist % 256
      :: no_laps / 256 % 256 :: no_laps % 256 :: 0 :: 0 :: 0 :: 0 :: 0 :: 0
      :: 0 :: 0 :: 170 :: rest) = rest from rfl]
  cases hc : chunks 41 rest with
  | none => rfl
  | some rs =>
    simp only [u32_at, u16_at, List.getD_cons_succ, List.getD_cons_zero,
      Except.ok.injEq, Prod.mk.injEq, TrackHead.mk.injEq, Duration.mk.injEq,
      true_and, and_true]
    omega

/-- C2 counterexample: a lap-info parameter holding a valid `0xAA` header
followed by exactly 37 bytes — one record under the claim's 37-byte layout
— fails to decode (`struct.error`): the actual wire records of struct
format `">3I3H2B2H13s2H"` are 41 bytes long (`distance` is u32 and the pad
after `calories` is u16), so 37 trailing bytes are not a whole number of
records. -/
theorem lap_record_size_counterexample :
    unpack_lap_info_parameter
        (encode_lap_info_header sample_head ++ List.replicate 37 0)
      = .error .structError := by decide

/-- C2 amended: after the 29-byte header tagged `0xAA`,
`unpack_lap_info_parameter` decodes repeating 41-byte big-endian lap
records `{duration:u32, total_time:u32 (both deciseconds), distance:u32,
calories:u16, pad:u16, max_speed:u16, max_heart_rate:u8, avg_heart_rate:u8,
min_height:u16, max_height:u16, 13 reserved bytes, first_index:u16,
last_index:u16}`, returning one `Lap` per record with exactly those field
values. -/
theorem unpack_lap_info_correct (head : TrackHead) (laps : List Lap)
    (hh : head_encodable head) (hl : ∀ l ∈ laps, lap_encodable l) :
    unpack_lap_info_parameter
        (encode_lap_info_header head
          ++ (laps.map encode_lap_record).flatten)
      = .ok (head, laps) := by
  rw [unpack_lap_info_append head _ hh]
  rw [chunks_flatten_exact 41 (by omega) _ (by
    intro r hr
    obtain ⟨l, hmem, hre⟩ := List.mem_map.mp hr
    rw [← hre]
    exact encode_lap_record_length l)]
  show Except.ok (head, (laps.map encode_lap_record).map parse_lap_record)
      = Except.ok (head, laps)
  rw [map_parse_encode laps hl]

/-- C2 witness: the amended decoding theorem applied to a concrete header
and one concrete lap record. -/
theorem unpack_lap_info_correct_witness :
    unpack_lap_info_parameter
        (encode_lap_info_header sample_head
          ++ (([⟨⟨5⟩, ⟨10⟩, 20, 21, 22, 23, 24, 25, 26, 27, 28⟩] :
              List Lap).map encode_lap_record).flatten)
      = .ok (sample_head,
          [⟨⟨5⟩, ⟨10⟩, 20, 21, 22, 23, 24, 25, 26, 27, 28⟩]) :=
  unpack_lap_info_correct sample_head
    [⟨⟨5⟩, ⟨10⟩, 20, 21, 22, 23, 24, 25, 26, 27, 28⟩]
    (by decide) (by decide)

lemma accumulate_points_ge (info : TrackInfo) (acc : List TrackPoint)
    (replies : List (List Nat)) (pts : List TrackPoint)
    (rest : List (List Nat))
    (h : accumulate_points info acc replies = .ok (pts, rest)) :
    info.no_track_points ≤ pts.length := by
  induction replies generalizing acc with
  | nil =>
    simp only [accumulate_points] at h
    by_cases hlt : acc.length < info.no_track_points
    · rw [if_pos hlt] at h; cases h
    · rw [if_neg hlt] at h
      cases h
      omega
  | cons raw rest' ih =>
    simp only [accumulate_points] at h
    by_cases hlt : acc.length < info.no_track_points
    · rw [if_pos hlt] at h
      split at h
      · exact Except.noConfusion h
      split at h
      · exact Except.noConfusion h
      exact ih _ h
    · rw [if_neg hlt] at h
      cases h
      omega

lemma query_tracks_aux_points (n : Nat) (msg : Message)
    (replies : List (List Nat)) (tracks : List Track) (final : Message)
    (h : query_tracks_aux n msg replies = .ok (tracks, final)) :
    ∀ t ∈ tracks, t.info.no_track_points ≤ t.track_points.length := by
  induction n generalizing msg replies tracks final with
  | zero =>
    simp only [query_tracks_aux] at h
    cases h
    intro t ht
    exact absurd ht (List.not_mem_nil t)
  | succ m ih =>
    simp only [query_tracks_aux] at h
    split at h
    · exact Except.noConfusion h
    rename_i track_info heq1
    split at h
    · exact Except.noConfusion h
    rename_i lap_msg replies1 heq2
    split at h
    · exact Except.noConfusion h
    rename_i laps heq3
    split at h
    · exact Except.noConfusion h
    rename_i track_points replies2 heq4
    split at h
    · exact Except.noConfusion h
    rename_i next_msg replies3 heq5
    split at h
    · exact Except.noConfusion h
    rename_i tracks' final' heq6
    cases h
    intro t ht
    rcases List.mem_cons.mp ht with rfl | hmem
    · exact accumulate_points_ge track_info [] replies1 track_points
        replies2 heq4
    · exact ih next_msg replies3 tracks' final heq6 t hmem

/-- C4 counterexample: a reply sequence that passes every validation check
of `query_tracks` (track list, track info declaring 1 point, compatible
lap info, a track-points message with session indices `(0, 1)` carrying 2
points, finish message) yields a `Track` with `no_track_points = 1` but
`len(track_points) = 2`: the accumulation loop only stops once the count
reaches *at least* the declared number, so a final over-full message makes
the assembled track exceed its declared point count. -/
theorem query_tracks_overshoot_counterexample :
    (query_tracks overshoot_replies [7]).map
        (fun ts => ts.map fun t =>
          (t.info.no_track_points, t.track_points.length))
        = .ok [(1, 2)]
      ∧ (1 : Nat) ≠ 2 := by decide

/-- C4 amended: for every reply sequence that passes all validation
checks, every `Track` returned by a successful `query_tracks` satisfies
`len(track_points) ≥ info.no_track_points` — a track is assembled only
once at least its declared number of points has been accumulated (never
fewer, but possibly more when the final track-points message overshoots
the declared count). -/
theorem query_tracks_point_count (replies : List (List Nat))
    (track_ids : List Nat) (tracks : List Track)
    (h : query_tracks replies track_ids = .ok tracks) :
    ∀ t ∈ tracks, t.info.no_track_points ≤ t.track_points.length := by
  simp only [query_tracks] at h
  split at h
  · exact Except.noConfusion h
  split at h
  · exact Except.noConfusion h
  split at h
  · exact Except.noConfusion h
  split at h
  · exact Except.noConfusion h
  split at h
  · exact Except.noConfusion h
  rename_i msg replies2 heq5
  split at h
  · exact Except.noConfusion h
  rename_i tracks0 final_msg heq6
  split at h
  · exact Except.noConfusion h
  cases h
  exact query_tracks_aux_points track_ids.length msg replies2 tracks
    final_msg heq6

/-- C4 witness: the amended theorem applied to the concrete overshoot run
(whose returned track has 1 declared and 2 actual points). -/
theorem query_tracks_point_count_witness :
    (⟨sample_info, [],
        [⟨0, 0, 0, 0, 0, ⟨0⟩⟩, ⟨0, 0, 0, 0, 0, ⟨0⟩⟩]⟩ :
      Track).info.no_track_points
      ≤ (⟨sample_info, [],
          [⟨0, 0, 0, 0, 0, ⟨0⟩⟩, ⟨0, 0, 0, 0, 0, ⟨0⟩⟩]⟩ :
        Track).track_points.length :=
  query_tracks_point_count overshoot_replies [7]
    [⟨sample_info, [],
      [⟨0, 0, 0, 0, 0, ⟨0⟩⟩, ⟨0, 0, 0, 0, 0, ⟨0⟩⟩]⟩]
    (by decide) _ (by decide)

end SQ100
